import Mathlib

/-!
Verification of the email_validator repository (Go).

Strings are modelled as lists of Unicode code points (`List Nat`), written
`Str`.  `str "..."` converts a Lean string literal to this representation.
Go's `strings.ToLower` / `strings.TrimSpace` / `unicode` classifiers are
modelled on the ASCII range (all inputs exercised by the spec and the tests
are ASCII).  Frequently used code points:
  9..13 whitespace, 32 ' ', 45 '-', 46 '.', 48..57 '0'..'9', 58 ':',
  64 '@', 65..90 'A'..'Z', 91 '[', 93 ']', 97..122 'a'..'z'.
-/

abbrev Str := List Nat

/-- Converts a Lean string literal to the code-point list model. -/
def str (x : String) : Str := x.data.map Char.toNat

/-- Go `unicode.IsSpace` restricted to the ASCII range ('\t','\n','\v','\f','\r',' '). -/
def isSpaceC (n : Nat) : Bool := n == 32 || (9 ≤ n && n ≤ 13)

/-- Go `strings.ToLower` on one ASCII code point: 'A'..'Z' shifts by 32. -/
def lowerC (n : Nat) : Nat := if 65 ≤ n ∧ n ≤ 90 then n + 32 else n

/-- Go `strings.ToLower` (ASCII model). -/
def goToLower (l : Str) : Str := l.map lowerC

/-- Removes the longest suffix of elements satisfying `p` (helper for TrimSpace). -/
def goDropEnd (p : Nat → Bool) (l : Str) : Str := (l.reverse.dropWhile p).reverse

/-- Go `strings.TrimSpace` (ASCII model): drop leading and trailing whitespace. -/
def goTrimSpace (l : Str) : Str := goDropEnd isSpaceC (l.dropWhile isSpaceC)

/-- Go `strings.Split(s, sep)` for a one-code-point separator: the list of
maximal separator-free segments; always nonempty, `[[]]` on the empty string. -/
def goSplit (sep : Nat) : Str → List Str
  | [] => [[]]
  | c :: r =>
    match goSplit sep r with
    | [] => [[]]
    | h :: t => if c = sep then [] :: h :: t else (c :: h) :: t

/-- Go `strings.HasPrefix(s, c)` for a single code point. -/
def startsWithC (c : Nat) (l : Str) : Bool :=
  match l with
  | [] => false
  | d :: _ => d == c

/-- Go `strings.HasSuffix(s, c)` for a single code point. -/
def endsWithC (c : Nat) (l : Str) : Bool :=
  match l.getLast? with
  | some d => d == c
  | none => false

/-- Character class a-z (lower-case ASCII letter). -/
def lowerAlphaC (n : Nat) : Bool := 97 ≤ n && n ≤ 122

/-- Character class A-Za-z. -/
def alphaC (n : Nat) : Bool := (65 ≤ n && n ≤ 90) || (97 ≤ n && n ≤ 122)

/-- Character class 0-9. -/
def digitC (n : Nat) : Bool := 48 ≤ n && n ≤ 57

/-- Character class A-Za-z0-9. -/
def alnumC (n : Nat) : Bool := alphaC n || digitC n

/-- Decimal value of a digit string (fold, as a Go digit-accumulation loop). -/
def natOfDigits (l : Str) : Nat := l.foldl (fun a c => a * 10 + (c - 48)) 0

/-- Go `strings.Contains(hay, needle)`: `p` occurs as a contiguous
substring of the second argument. -/
def containsSub (p : Str) : Str → Bool
  | [] => p.isEmpty
  | c :: r => p.isPrefixOf (c :: r) || containsSub p r

theorem goSplit_ne_nil (sep : Nat) (l : Str) : goSplit sep l ≠ [] := by
  cases l with
  | nil => simp [goSplit]
  | cons c r =>
    cases hg : goSplit sep r with
    | nil => simp [goSplit, hg]
    | cons h t =>
      simp only [goSplit, hg]
      split <;> simp

theorem goSplit_length (sep : Nat) (l : Str) :
    (goSplit sep l).length = l.count sep + 1 := by
  induction l with
  | nil => simp [goSplit]
  | cons c r ih =>
    cases hg : goSplit sep r with
    | nil => exact absurd hg (goSplit_ne_nil sep r)
    | cons h t =>
      rw [hg] at ih
      by_cases hc : c = sep
      · subst hc
        simp only [goSplit, hg]
        simp only [if_true, List.length_cons, List.count_cons_self]
        simp only [List.length_cons] at ih
        omega
      · simp only [goSplit, hg, if_neg hc, List.length_cons]
        rw [List.count_cons_of_ne (Ne.symm hc)]
        simpa using ih

theorem goSplit_no_sep (sep : Nat) (l : Str) (h : l.count sep = 0) :
    goSplit sep l = [l] := by
  induction l with
  | nil => simp [goSplit]
  | cons c r ih =>
    have hc : c ≠ sep := by
      intro hc; subst hc; simp [List.count_cons_self] at h
    have hr : r.count sep = 0 := by
      rw [List.count_cons_of_ne (Ne.symm hc)] at h; exact h
    simp only [goSplit, ih hr, if_neg hc]

theorem goSplit_sep_append (sep : Nat) (a b : Str) (ha : a.count sep = 0) :
    goSplit sep (a ++ sep :: b) = a :: goSplit sep b := by
  induction a with
  | nil =>
    cases hg : goSplit sep b with
    | nil => exact absurd hg (goSplit_ne_nil sep b)
    | cons h t => simp [goSplit, hg]
  | cons c a' ih =>
    have hc : c ≠ sep := by
      intro hc; subst hc; simp [List.count_cons_self] at ha
    have ha' : a'.count sep = 0 := by
      rw [List.count_cons_of_ne (Ne.symm hc)] at ha; exact ha
    show goSplit sep (c :: (a' ++ sep :: b)) = (c :: a') :: goSplit sep b
    simp only [goSplit, ih ha', if_neg hc]

/-!
Model of the validators' shared anchored format regex

  ^LOCAL+@LABEL(\.LABEL)*$
  LOCAL = [a-zA-Z0-9.!#$%&'*+/=?^_`{|}~-]   (one or more)
  LABEL = [a-zA-Z0-9](?:[a-zA-Z0-9-]{0,61}[a-zA-Z0-9])?

Neither character class contains '@' (64), so a string matches exactly when
it has a single '@', the part before it is a nonempty run of LOCAL
characters, and every '.'-separated label of the part after it is nonempty,
at most 63 long, starts and ends alphanumeric and uses only [a-zA-Z0-9-].
-/

/-- Special characters of the local-part class of the format regex:
. ! # $ % & apostrophe * + / = ? ^ _ backtick braces bar tilde hyphen. -/
def atextSpecials : Str :=
  [46, 33, 35, 36, 37, 38, 39, 42, 43, 47, 61, 63, 94, 95, 96, 123, 124, 125, 126, 45]

/-- Membership in the regex local-part character class. -/
def atextC (n : Nat) : Bool := alnumC n || atextSpecials.contains n

/-- Language of one regex domain label `[a-zA-Z0-9](?:[a-zA-Z0-9-]{0,61}[a-zA-Z0-9])?`:
nonempty, length at most 63, alphanumeric first and last characters,
characters drawn from [a-zA-Z0-9-]. -/
def labelMatch (lab : Str) : Bool :=
  match lab with
  | [] => false
  | c :: _ =>
    alnumC c && alnumC (lab.getLastD 0) && lab.length ≤ 63 &&
      lab.all (fun x => alnumC x || x == 45)

/-- The anchored format regex applied to a whole string. -/
def emailRegexMatch (l : Str) : Bool :=
  match goSplit 64 l with
  | [a, b] => (decide (a ≠ []) && a.all atextC) && (goSplit 46 b).all labelMatch
  | _ => false

/-!
Model of Go `net.ParseIP` (success/failure only).  `net.ParseIP` scans for
the first '.' or ':' and parses as dotted-quad IPv4 or as RFC 4291 IPv6
respectively; IPv4 octets are 1-3 digits, value at most 255, no leading
zeros; IPv6 is 8 sixteen-bit hex groups with at most one `::` (which must
stand for at least one zero group) and an optional trailing embedded IPv4
counting as two groups.  Zone suffixes are rejected.
-/

/-- First separator class on the scan: `some 46` for '.', `some 58` for ':'. -/
def firstIPSep : Str → Option Nat
  | [] => none
  | c :: r => if c = 46 then some 46 else if c = 58 then some 58 else firstIPSep r

/-- One dotted-quad field: 1-3 digits, at most 255, no leading zero. -/
def v4Field (f : Str) : Bool :=
  decide (f ≠ []) && f.length ≤ 3 && f.all digitC && natOfDigits f ≤ 255 &&
    (f.length == 1 || f.headD 0 != 48)

/-- Dotted-quad IPv4 literal. -/
def parseIPv4 (x : Str) : Bool :=
  match goSplit 46 x with
  | [a, b, c, d] => v4Field a && v4Field b && v4Field c && v4Field d
  | _ => false

/-- Hexadecimal digit. -/
def hexDigitC (n : Nat) : Bool := digitC n || (97 ≤ n && n ≤ 102) || (65 ≤ n && n ≤ 70)

/-- One IPv6 group: 1-4 hex digits. -/
def h16 (g : Str) : Bool := decide (g ≠ []) && g.length ≤ 4 && g.all hexDigitC

/-- Splits at the first `::`, if any. -/
def findCC : Str → Option (Str × Str)
  | [] => none
  | [_] => none
  | a :: b :: r =>
    if a = 58 ∧ b = 58 then some ([], r)
    else
      match findCC (b :: r) with
      | some (l, rr) => some (a :: l, rr)
      | none => none

/-- Colon-separated groups of one side of a `::`; empty side gives no groups. -/
def sideGroups (x : Str) : List Str := if x = [] then [] else goSplit 58 x

/-- Sixteen-bit word count of a group list whose last group may be an
embedded IPv4 literal; `none` when some group is invalid. -/
def groupsWords : List Str → Option Nat
  | [] => some 0
  | [g] => if h16 g then some 1 else if parseIPv4 g then some 2 else none
  | g :: gs => if h16 g then (groupsWords gs).map (· + 1) else none

/-- RFC 4291 IPv6 literal as accepted by Go `net.ParseIP`. -/
def parseIPv6 (x : Str) : Bool :=
  match findCC x with
  | some (lft, rgt) =>
    let lg := sideGroups lft
    let rg := sideGroups rgt
    lg.all h16 &&
      (match groupsWords rg with
       | some w => decide (lg.length + w < 8)
       | none => false)
  | none =>
    match groupsWords (goSplit 58 x) with
    | some w => w == 8
    | none => false

/-- Go `net.ParseIP`, success only: IPv4 when the first separator seen is a
dot, IPv6 when it is a colon, failure otherwise. -/
def goParseIP (x : Str) : Bool :=
  match firstIPSep x with
  | none => false
  | some c => if c = 46 then parseIPv4 x else parseIPv6 x

/-!
Model of the `CommonPatterns` classifier (source: `NewCommonPatterns`,
`IsDisposable`, `IsRoleAccount`, `HasCommonPattern`).  `IsDisposable`
indexes `strings.Split(email, "@")[1]` without a length guard, so a string
without '@' makes that access panic; a panic is modelled as `none`.
`HasCommonPattern` ranges over a Go map literal of seven regex patterns, so
its match order is the map's unspecified iteration order; the model takes
the order as a parameter.
-/

/-- Keys of the `HasCommonPattern` pattern map, named by their tag. -/
inductive PatternKey where
  | numericOnly
  | firstLast
  | nameWithNumbers
  | firstLastWithNumbers
  | initialsWithNumbers
  | testAccount
  | demoAccount
deriving DecidableEq

/-- Language of the pattern regex attached to each key, decided on the
(lower-cased) local part:
`^\d+$`, `^[a-z]+\.[a-z]+$`, `^[a-z]+\d+$`, `^[a-z]+\.[a-z]+\d+$`,
`^[a-z]{1,2}\d+$`, `^test`, `^demo`.  Character classes are disjoint from
'.' and from each other, so each language is decided by splitting at the
dots and at the letter/digit boundary. -/
def matchesKey : PatternKey → Str → Bool
  | .numericOnly, l => decide (l ≠ []) && l.all digitC
  | .firstLast, l =>
    (match goSplit 46 l with
     | [a, b] =>
       decide (a ≠ []) && a.all lowerAlphaC && decide (b ≠ []) && b.all lowerAlphaC
     | _ => false)
  | .nameWithNumbers, l =>
    let a := l.takeWhile lowerAlphaC
    let r := l.drop a.length
    decide (a ≠ []) && decide (r ≠ []) && r.all digitC
  | .firstLastWithNumbers, l =>
    (match goSplit 46 l with
     | [a, b] =>
       let bl := b.takeWhile lowerAlphaC
       let d := b.drop bl.length
       decide (a ≠ []) && a.all lowerAlphaC &&
         decide (bl ≠ []) && decide (d ≠ []) && d.all digitC
     | _ => false)
  | .initialsWithNumbers, l =>
    let a := l.takeWhile lowerAlphaC
    let r := l.drop a.length
    (a.length == 1 || a.length == 2) && decide (r ≠ []) && r.all digitC
  | .testAccount, l => (str "test").isPrefixOf l
  | .demoAccount, l => (str "demo").isPrefixOf l

/-- Tag returned for each pattern key. -/
def tagOf : PatternKey → String
  | .numericOnly => "numeric_only"
  | .firstLast => "first.last"
  | .nameWithNumbers => "name_with_numbers"
  | .firstLastWithNumbers => "first.last_with_numbers"
  | .initialsWithNumbers => "initials_with_numbers"
  | .testAccount => "test_account"
  | .demoAccount => "demo_account"

/-- The order in which the pattern map literal is written in the source. -/
def declaredMapOrder : List PatternKey :=
  [.numericOnly, .firstLast, .nameWithNumbers, .firstLastWithNumbers,
   .initialsWithNumbers, .testAccount, .demoAccount]

/-- Another iteration order a Go map may exhibit over the same entries. -/
def altMapOrder : List PatternKey :=
  [.testAccount, .numericOnly, .firstLast, .nameWithNumbers,
   .firstLastWithNumbers, .initialsWithNumbers, .demoAccount]

/-- The disposable-provider list of `CommonPatterns.IsDisposable`. -/
def cpDisposableProviders : List Str :=
  [str "tempmail.com", str "guerrillamail.com", str "mailinator.com",
   str "10minutemail.com", str "throwawaymail.com", str "yopmail.com",
   str "fakeinbox.com", str "trashmail.com", str "getairmail.com",
   str "dispostable.com", str "maildrop.cc", str "tmpmail.org"]

/-- The role-account vocabulary of `CommonPatterns.IsRoleAccount`. -/
def cpRoleAccounts : List Str :=
  [str "admin", str "administrator", str "webmaster", str "postmaster",
   str "hostmaster", str "abuse", str "noc", str "security", str "info",
   str "sales", str "support", str "contact", str "help", str "mail",
   str "hello", str "noreply", str "no-reply", str "newsletter"]

/-- Govalue `CommonPatterns.IsDisposable`: lower-cases `Split(email,"@")[1]`
and tests substring containment against the provider list; `none` models
the index-out-of-range panic when the split has no second element. -/
def cpIsDisposable (email : Str) : Option Bool :=
  ((goSplit 64 email)[1]?).map fun d =>
    cpDisposableProviders.any fun p => containsSub p (goToLower d)

/-- Go `CommonPatterns.IsRoleAccount`: exact match of the lower-cased
`Split(email,"@")[0]` against the role vocabulary. -/
def cpIsRoleAccount (email : Str) : Option Bool :=
  ((goSplit 64 email)[0]?).map fun l => cpRoleAccounts.contains (goToLower l)

/-- Go `CommonPatterns.HasCommonPattern` at a given map iteration order:
first pattern matching the lower-cased `Split(email,"@")[0]` wins, with
fallback tag "custom". -/
def cpHasCommonPattern (order : List PatternKey) (email : Str) : Option String :=
  ((goSplit 64 email)[0]?).map fun l =>
    match order.find? (fun k => matchesKey k (goToLower l)) with
    | some k => tagOf k
    | none => "custom"

/-!
Model of the MX-checking validator (source: `NewEmailValidator`,
`ValidationResult`, `Validate`, `isDisposableDomain`, `checkMXRecords`).
The sole network interaction, `checkMXRecords(domain)`, is abstracted by an
oracle parameter `mx : Option Bool`: `none` models a lookup error
(`err != nil`), `some b` a successful lookup reporting whether MX records
exist.  `hasMXRecord = none` in the result models the Go `HasMXRecord`
field never being assigned (left at its zero value).  The ghost field
`dnsQueried` records whether execution reached the `checkMXRecords` call.
-/

def msgMXEmpty : String := "Email cannot be empty"
def msgMXTooLong : String := "Email address too long (max 254 characters)"
def msgMXBadFormat : String := "Invalid email format"
def msgMXBadStructure : String := "Invalid email structure"
def msgMXLocalLong : String := "Local part too long (max 64 characters)"
def msgMXLocalEmpty : String := "Local part cannot be empty"
def msgMXDomainLong : String := "Domain too long (max 253 characters)"
def msgMXDomainEmpty : String := "Domain cannot be empty"
def msgMXDisposable : String := "Disposable email addresses are not allowed"
def msgMXNoMX : String := "Domain does not have valid MX records"

/-- Result record of the MX-checking validator. -/
structure MXResult where
  isValid : Bool
  errors : List String
  normalizedEmail : Str
  isDisposable : Bool
  hasMXRecord : Option Bool
  dnsQueried : Bool
deriving DecidableEq, Repr

/-- Disposable-domain registry installed by `NewEmailValidator`. -/
def mxDisposableDomains : List Str :=
  [str "tempmail.com", str "throwaway.com", str "guerrillamail.com",
   str "mailinator.com", str "yopmail.com", str "10minutemail.com"]

/-- Diagnostics appended before the split: overall length, then regex format. -/
def mxPreErrors (normalized : Str) : List String :=
  (if 254 < normalized.length then [msgMXTooLong] else []) ++
    (if emailRegexMatch normalized then [] else [msgMXBadFormat])

/-- Diagnostics appended after the split, in source order: local-part length
and emptiness, domain length and emptiness, disposable registry. -/
def mxPartErrors (localPart domain : Str) : List String :=
  (if 64 < localPart.length then [msgMXLocalLong] else []) ++
    (if localPart = [] then [msgMXLocalEmpty] else []) ++
    (if 253 < domain.length then [msgMXDomainLong] else []) ++
    (if domain = [] then [msgMXDomainEmpty] else []) ++
    (if mxDisposableDomains.contains domain then [msgMXDisposable] else [])

/-- Diagnostic of the MX step: appended only on a successful lookup
reporting no MX records (`err == nil && !hasMX` in the source). -/
def mxDNSErrors (mx : Option Bool) : List String :=
  match mx with
  | some false => [msgMXNoMX]
  | _ => []

/-- Go `Validate` of the MX-checking validator: trim and lower-case, then
accumulate diagnostics in source order (overall length, regex format,
separator structure with early return, local-part length and emptiness,
domain length and emptiness, disposable registry, MX records), with an
early return on empty input. -/
def goValidate (mx : Option Bool) (email : Str) : MXResult :=
  let normalized := goTrimSpace (goToLower email)
  if normalized = [] then
    { isValid := false, errors := [msgMXEmpty], normalizedEmail := normalized,
      isDisposable := false, hasMXRecord := none, dnsQueried := false }
  else
    let parts := goSplit 64 normalized
    if parts.length ≠ 2 then
      { isValid := false, errors := mxPreErrors normalized ++ [msgMXBadStructure],
        normalizedEmail := normalized, isDisposable := false,
        hasMXRecord := none, dnsQueried := false }
    else
      let localPart := parts.getD 0 []
      let domain := parts.getD 1 []
      let errs := mxPreErrors normalized ++ mxPartErrors localPart domain ++ mxDNSErrors mx
      { isValid := errs.isEmpty, errors := errs, normalizedEmail := normalized,
        isDisposable := mxDisposableDomains.contains domain,
        hasMXRecord := mx, dnsQueried := true }

/-!
Model of the options-based validator (source: `New(options...)`,
`Validate`, `isValidFormat`, `splitEmail`, `validateLocalPart`,
`validateDomain`, `validateIPDomain`, `isValidTLD`, `isDomainBlocked`,
`normalizeEmail`, and the functional options of `options.go`).
`blockedDomains` holds the keys of the Go map, which
`WithBlockedDomains` lower-cases on insertion.
-/

def msgOptBadFormat : String := "Invalid email format"
def msgOptLocalEmpty : String := "local part cannot be empty"
def msgOptLocalLong : String := "local part exceeds maximum length (64 characters)"
def msgOptLocalDots : String := "local part cannot contain consecutive dots"
def msgOptLocalDotEnds : String := "local part cannot start or end with a dot"
def msgOptDomainEmpty : String := "domain cannot be empty"
def msgOptIPNotAllowed : String := "IP address domains are not allowed"
def msgOptBadIP : String := "invalid IP address in domain"
def msgOptTwoParts : String := "domain must have at least two parts"
def msgOptBadTLD : String := "invalid top-level domain"
def msgOptLabelLong : String := "domain part exceeds maximum length (63 characters)"
def msgOptLabelHyphen : String := "domain part cannot start or end with hyphen"
def msgOptBlocked : String := "Domain is blocked"

/-- Configuration of the options-based validator. -/
structure Options where
  allowIPAddresses : Bool := false
  allowTLDs : List Str := []
  blockedDomains : List Str := []
deriving Repr

/-- The zero-option configuration produced by `New()`. -/
def defaultOpts : Options := {}

/-- Result record of the options-based validator. -/
structure OptResult where
  isValid : Bool
  errors : List String
  normalized : Str
deriving DecidableEq, Repr

/-- Go `isValidFormat`: rune-count bound then the format regex. -/
def optIsValidFormat (email : Str) : Bool :=
  if 254 < email.length then false else emailRegexMatch email

/-- Go `splitEmail`: the two parts at a single '@', or an empty-pair sentinel. -/
def optSplitEmail (email : Str) : Str × Str :=
  match goSplit 64 email with
  | [a, b] => (a, b)
  | _ => ([], [])

/-- Go `validateLocalPart`: empty, length, consecutive dots, dot at an end. -/
def optValidateLocalPart (l : Str) : Option String :=
  if l = [] then some msgOptLocalEmpty
  else if 64 < l.length then some msgOptLocalLong
  else if containsSub [46, 46] l then some msgOptLocalDots
  else if startsWithC 46 l || endsWithC 46 l then some msgOptLocalDotEnds
  else none

/-- Go `validateIPDomain`: `net.ParseIP` on the bracketed content. -/
def optValidateIPDomain (ip : Str) : Option String :=
  if goParseIP ip then none else some msgOptBadIP

/-- Built-in TLD registry of `isValidTLD`. -/
def builtinTLDs : List Str :=
  [str "com", str "org", str "net", str "edu", str "gov",
   str "io", str "co", str "info", str "biz", str "me"]

/-- Go `isValidTLD`: a non-empty allow-list is matched case-insensitively
(`strings.EqualFold`, ASCII model); otherwise the lower-cased TLD is looked
up in the built-in registry. -/
def optIsValidTLD (opts : Options) (tld : Str) : Bool :=
  if opts.allowTLDs ≠ [] then
    opts.allowTLDs.any fun a => goToLower tld == goToLower a
  else
    builtinTLDs.contains (goToLower tld)

/-- Per-label checks of the `validateDomain` loop: length bound first, then
hyphen at an end. -/
def optLabelErr (p : Str) : Option String :=
  if 63 < p.length then some msgOptLabelLong
  else if startsWithC 45 p || endsWithC 45 p then some msgOptLabelHyphen
  else none

/-- Go `validateDomain`: empty check, bracketed IP-literal policy, label
count, TLD validity, then the first per-label violation. -/
def optValidateDomain (opts : Options) (d : Str) : Option String :=
  if d = [] then some msgOptDomainEmpty
  else if startsWithC 91 d && endsWithC 93 d then
    if !opts.allowIPAddresses then some msgOptIPNotAllowed
    else optValidateIPDomain (d.drop 1).dropLast
  else
    let parts := goSplit 46 d
    if parts.length < 2 then some msgOptTwoParts
    else if !optIsValidTLD opts (parts.getLastD []) then some msgOptBadTLD
    else parts.findSome? optLabelErr

/-- Go `isDomainBlocked`: lower-cased exact lookup in the blocked map. -/
def optIsDomainBlocked (opts : Options) (d : Str) : Bool :=
  opts.blockedDomains.contains (goToLower d)

/-- Go `normalizeEmail`: lower-case then trim surrounding whitespace. -/
def goNormalizeEmail (email : Str) : Str := goTrimSpace (goToLower email)

/-- Diagnostics collected after the format gate, in source order:
local-part, domain, blocked domain. -/
def optErrors (opts : Options) (email : Str) : List String :=
  (match optValidateLocalPart (optSplitEmail email).1 with
   | some m => [m]
   | none => []) ++
    (match optValidateDomain opts (optSplitEmail email).2 with
     | some m => [m]
     | none => []) ++
    (if optIsDomainBlocked opts (optSplitEmail email).2 then [msgOptBlocked] else [])

/-- Go `Validate` of the options-based validator: format gate with early
return, then local-part, domain and blocked-domain diagnostics collected
independently; `Normalized` is assigned only in the valid case. -/
def optionsValidate (opts : Options) (email : Str) : OptResult :=
  if optIsValidFormat email = false then
    { isValid := false, errors := [msgOptBadFormat], normalized := [] }
  else
    { isValid := (optErrors opts email).isEmpty, errors := optErrors opts email,
      normalized :=
        if (optErrors opts email).isEmpty then goNormalizeEmail email else [] }

/-!
Model of `LengthRule.Validate` (source: `validation_rules.go`).  The Go
method returns a single `error` value: the first of (overall length 254,
separator structure, local-part length 64, domain length 253) that fails,
as a `ValidationError{Rule, Message}` pair, or `nil`.
-/

def lengthRuleName : String := "length_rule"
def msgLRTooLong : String := "Email too long (max 254 characters)"
def msgLRBadStructure : String := "Invalid email structure"
def msgLRLocalLong : String := "Local part too long (max 64 characters)"
def msgLRDomainLong : String := "Domain too long (max 253 characters)"

/-- Go `LengthRule.Validate`: first violated bound wins, `none` on success. -/
def lengthRuleValidate (email : Str) : Option (String × String) :=
  if 254 < email.length then some (lengthRuleName, msgLRTooLong)
  else
    match goSplit 64 email with
    | [a, b] =>
      if 64 < a.length then some (lengthRuleName, msgLRLocalLong)
      else if 253 < b.length then some (lengthRuleName, msgLRDomainLong)
      else none
    | _ => some (lengthRuleName, msgLRBadStructure)

/-! Helper lemmas about the string model. -/

theorem lowerC_idem (n : Nat) : lowerC (lowerC n) = lowerC n := by
  unfold lowerC
  split_ifs <;> omega

theorem lowerC_eq_64_iff (n : Nat) : lowerC n = 64 ↔ n = 64 := by
  unfold lowerC
  split <;> omega

theorem count_dropWhile_eq (p : Nat → Bool) (c : Nat) (hc : p c = false) (l : Str) :
    (l.dropWhile p).count c = l.count c := by
  induction l with
  | nil => rfl
  | cons a r ih =>
    by_cases hp : p a
    · have hac : c ≠ a := by
        intro h; subst h; rw [hc] at hp; exact Bool.noConfusion hp
      rw [List.dropWhile_cons_of_pos hp, List.count_cons_of_ne hac, ih]
    · rw [List.dropWhile_cons_of_neg hp]

theorem count_goDropEnd_eq (p : Nat → Bool) (c : Nat) (hc : p c = false) (l : Str) :
    (goDropEnd p l).count c = l.count c := by
  unfold goDropEnd
  rw [List.count_reverse, count_dropWhile_eq p c hc, List.count_reverse]

theorem count64_goToLower (l : Str) : (goToLower l).count 64 = l.count 64 := by
  induction l with
  | nil => rfl
  | cons a r ih =>
    show List.count 64 (lowerC a :: goToLower r) = List.count 64 (a :: r)
    by_cases ha : a = 64
    · subst ha
      have h64 : lowerC 64 = 64 := by decide
      rw [h64, List.count_cons_self, List.count_cons_self, ih]
    · have hla : (64 : Nat) ≠ lowerC a := by
        intro h
        exact ha ((lowerC_eq_64_iff a).mp h.symm)
      rw [List.count_cons_of_ne hla, List.count_cons_of_ne (Ne.symm ha), ih]

theorem count64_normalize (email : Str) :
    (goTrimSpace (goToLower email)).count 64 = email.count 64 := by
  unfold goTrimSpace
  rw [count_goDropEnd_eq isSpaceC 64 (by decide),
    count_dropWhile_eq isSpaceC 64 (by decide), count64_goToLower]

theorem dropWhile_dropWhile_same (p : Nat → Bool) (l : Str) :
    (l.dropWhile p).dropWhile p = l.dropWhile p := by
  cases h : l.dropWhile p with
  | nil => rfl
  | cons c r =>
    have hh := List.head?_dropWhile_not p l
    rw [h] at hh
    simp only [List.head?_cons] at hh
    exact List.dropWhile_cons_of_neg (by simp [hh])

theorem goDropEnd_idem (p : Nat → Bool) (l : Str) :
    goDropEnd p (goDropEnd p l) = goDropEnd p l := by
  unfold goDropEnd
  rw [List.reverse_reverse, dropWhile_dropWhile_same]

theorem goDropEnd_front (p : Nat → Bool) (l : Str) : goDropEnd p l <+: l := by
  obtain ⟨t, ht⟩ := List.dropWhile_suffix (l := l.reverse) p
  refine ⟨t.reverse, ?_⟩
  show (l.reverse.dropWhile p).reverse ++ t.reverse = l
  rw [← List.reverse_append, ht, List.reverse_reverse]

theorem head?_of_front {l₁ l₂ : Str} (h : l₁ <+: l₂) (hne : l₁ ≠ []) :
    l₂.head? = l₁.head? := by
  rcases h with ⟨t, rfl⟩
  cases l₁ with
  | nil => exact absurd rfl hne
  | cons c r => rfl

theorem dropWhile_goTrimSpace (l : Str) :
    (goTrimSpace l).dropWhile isSpaceC = goTrimSpace l := by
  unfold goTrimSpace
  cases hm : goDropEnd isSpaceC (l.dropWhile isSpaceC) with
  | nil => rfl
  | cons c r =>
    have hpre := goDropEnd_front isSpaceC (l.dropWhile isSpaceC)
    rw [hm] at hpre
    have hhead := head?_of_front hpre (by simp)
    have hnot := List.head?_dropWhile_not isSpaceC l
    cases hw : l.dropWhile isSpaceC with
    | nil =>
      rw [hw] at hpre
      exact absurd hpre.sublist.length_le (by simp)
    | cons d t =>
      rw [hw] at hhead hnot
      simp only [List.head?_cons, Option.some.injEq] at hhead
      simp only [List.head?_cons] at hnot
      subst hhead
      exact List.dropWhile_cons_of_neg (by simp [hnot])

theorem goTrimSpace_idem (l : Str) : goTrimSpace (goTrimSpace l) = goTrimSpace l := by
  show goDropEnd isSpaceC ((goTrimSpace l).dropWhile isSpaceC) = goTrimSpace l
  rw [dropWhile_goTrimSpace]
  show goDropEnd isSpaceC (goDropEnd isSpaceC (l.dropWhile isSpaceC)) = goTrimSpace l
  rw [goDropEnd_idem]
  rfl

theorem mem_goTrimSpace {c : Nat} {l : Str} (h : c ∈ goTrimSpace l) : c ∈ l := by
  unfold goTrimSpace at h
  have h1 : c ∈ l.dropWhile isSpaceC :=
    (goDropEnd_front isSpaceC (l.dropWhile isSpaceC)).sublist.mem h
  exact (List.dropWhile_suffix isSpaceC).sublist.mem h1

/-- C9: normalization is idempotent: for every input string x,
normalized(normalized(x)) equals normalized(x), where normalized trims
surrounding whitespace and lower-cases. -/
theorem c9_normalize_idem (x : Str) :
    goNormalizeEmail (goNormalizeEmail x) = goNormalizeEmail x := by
  unfold goNormalizeEmail
  have h1 : goToLower (goTrimSpace (goToLower x)) = goTrimSpace (goToLower x) := by
    have hfix : ∀ c ∈ goTrimSpace (goToLower x), lowerC c = c := by
      intro c hc
      have hx : c ∈ goToLower x := mem_goTrimSpace hc
      obtain ⟨d, _, rfl⟩ := List.mem_map.mp hx
      exact lowerC_idem d
    calc goToLower (goTrimSpace (goToLower x))
        = (goTrimSpace (goToLower x)).map id := List.map_congr_left hfix
      _ = goTrimSpace (goToLower x) := List.map_id _
  rw [h1, goTrimSpace_idem]

/-- C5: totality of the `CommonPatterns` operations.  `IsRoleAccount` and
`HasCommonPattern` (under any map iteration order) are total, but
`IsDisposable` panics (modelled as `none`) exactly on the inputs the claim
includes: strings containing no '@' separator, such as the empty string. -/
theorem c5_totality :
    cpIsDisposable (str "") = none ∧
      (∀ email : Str, (cpIsDisposable email = none ↔ email.count 64 = 0)) ∧
      (∀ (email : Str) (order : List PatternKey),
        (cpIsRoleAccount email).isSome = true ∧
          (cpHasCommonPattern order email).isSome = true) := by
  refine ⟨by decide, fun email => ?_, fun email order => ⟨?_, ?_⟩⟩
  · unfold cpIsDisposable
    rw [Option.map_eq_none', List.getElem?_eq_none_iff, goSplit_length]
    omega
  · unfold cpIsRoleAccount
    rw [Option.isSome_map']
    have : 0 < (goSplit 64 email).length := by rw [goSplit_length]; omega
    rw [List.getElem?_eq_getElem this]
    rfl
  · unfold cpHasCommonPattern
    rw [Option.isSome_map']
    have : 0 < (goSplit 64 email).length := by rw [goSplit_length]; omega
    rw [List.getElem?_eq_getElem this]
    rfl

/-- C1: the structural pattern tag of `HasCommonPattern` is decided by the
iteration order of an unordered Go map, not by the declared order.  The
local part "test123" matches both the `name_with_numbers` and the
`test_account` patterns, and two iteration orders of the same seven map
entries (a permutation) yield different tags.  On "john.doe123@x.com" only
one pattern matches, so that particular input is order-independent. -/
theorem c1_map_order_dependence :
    altMapOrder.Perm declaredMapOrder ∧
      cpHasCommonPattern declaredMapOrder (str "test123@x.com") =
        some "name_with_numbers" ∧
      cpHasCommonPattern altMapOrder (str "test123@x.com") =
        some "test_account" ∧
      cpHasCommonPattern declaredMapOrder (str "john.doe123@x.com") =
        some "first.last_with_numbers" ∧
      cpHasCommonPattern altMapOrder (str "john.doe123@x.com") =
        some "first.last_with_numbers" := by
  refine ⟨by decide, by decide, by decide, by decide, by decide⟩

/-! Branch characterizations of the validators. -/

theorem goValidate_of_empty (mx : Option Bool) (email : Str)
    (hn : goTrimSpace (goToLower email) = []) :
    goValidate mx email =
      { isValid := false, errors := [msgMXEmpty],
        normalizedEmail := goTrimSpace (goToLower email),
        isDisposable := false, hasMXRecord := none, dnsQueried := false } := by
  unfold goValidate
  rw [if_pos hn]

theorem goValidate_of_badsplit (mx : Option Bool) (email : Str)
    (hn : goTrimSpace (goToLower email) ≠ [])
    (hlen : (goSplit 64 (goTrimSpace (goToLower email))).length ≠ 2) :
    goValidate mx email =
      { isValid := false,
        errors := mxPreErrors (goTrimSpace (goToLower email)) ++ [msgMXBadStructure],
        normalizedEmail := goTrimSpace (goToLower email),
        isDisposable := false, hasMXRecord := none, dnsQueried := false } := by
  unfold goValidate
  rw [if_neg hn, if_pos hlen]

theorem goValidate_of_goodsplit (mx : Option Bool) (email : Str)
    (hn : goTrimSpace (goToLower email) ≠ [])
    (hlen : (goSplit 64 (goTrimSpace (goToLower email))).length = 2) :
    goValidate mx email =
      (let normalized := goTrimSpace (goToLower email)
       let parts := goSplit 64 normalized
       let errs := mxPreErrors normalized ++
         mxPartErrors (parts.getD 0 []) (parts.getD 1 []) ++ mxDNSErrors mx
       { isValid := errs.isEmpty, errors := errs, normalizedEmail := normalized,
         isDisposable := mxDisposableDomains.contains (parts.getD 1 []),
         hasMXRecord := mx, dnsQueried := true }) := by
  unfold goValidate
  rw [if_neg hn,
    if_neg (by omega : ¬ (goSplit 64 (goTrimSpace (goToLower email))).length ≠ 2)]

theorem emailRegexMatch_of_count_ne_one (email : Str) (h : email.count 64 ≠ 1) :
    emailRegexMatch email = false := by
  have h2 : (goSplit 64 email).length ≠ 2 := by rw [goSplit_length]; omega
  unfold emailRegexMatch
  cases hg : goSplit 64 email with
  | nil => rfl
  | cons a rest =>
    cases rest with
    | nil => rfl
    | cons b rest2 =>
      cases rest2 with
      | nil => rw [hg] at h2; simp at h2
      | cons c rest3 => rfl

/-- C8: for every input string whose '@'-count (code point 64) is not one,
the MX-checking `Validate` returns an invalid result carrying the
empty-input or malformed-structure diagnostic without reaching the DNS
lookup, and the options-based `Validate` returns an invalid result whose
only diagnostic is the format violation (that validator performs no DNS
lookup at all). -/
theorem c8_no_single_at (email : Str) (mx : Option Bool)
    (h : email.count 64 ≠ 1) :
    ((goValidate mx email).isValid = false ∧
      (goValidate mx email).dnsQueried = false ∧
      (msgMXEmpty ∈ (goValidate mx email).errors ∨
        msgMXBadStructure ∈ (goValidate mx email).errors)) ∧
    (∀ opts : Options, (optionsValidate opts email).isValid = false ∧
      (optionsValidate opts email).errors = [msgOptBadFormat]) := by
  constructor
  · by_cases hn : goTrimSpace (goToLower email) = []
    · rw [goValidate_of_empty mx email hn]
      exact ⟨rfl, rfl, Or.inl (by simp)⟩
    · have hlen : (goSplit 64 (goTrimSpace (goToLower email))).length ≠ 2 := by
        rw [goSplit_length, count64_normalize]; omega
      rw [goValidate_of_badsplit mx email hn hlen]
      exact ⟨rfl, rfl, Or.inr (by simp)⟩
  · intro opts
    have hfmt : optIsValidFormat email = false := by
      unfold optIsValidFormat
      by_cases hl : 254 < email.length
      · rw [if_pos hl]
      · rw [if_neg hl]
        exact emailRegexMatch_of_count_ne_one email h
    unfold optionsValidate
    rw [if_pos hfmt]
    exact ⟨rfl, rfl⟩

/-- C8 witness: the separator-free input "nodomain" is rejected by both
validators with the predicted diagnostics and without a DNS query. -/
theorem c8_witness :
    (goValidate (some true) (str "nodomain")).isValid = false ∧
      (goValidate (some true) (str "nodomain")).dnsQueried = false ∧
      (optionsValidate defaultOpts (str "nodomain")).errors = [msgOptBadFormat] := by
  have h := c8_no_single_at (str "nodomain") (some true) (by decide)
  exact ⟨h.1.1, h.1.2.1, (h.2 defaultOpts).2⟩

/-- C2 counterexample: the same well-formed address "user@example.com" is
valid when the MX lookup succeeds with records, but becomes invalid with
the diagnostic "Domain does not have valid MX records" when the lookup
succeeds finding none — refuting the claim that the DNS check never
contributes to `errors`. -/
theorem c2_counterexample :
    (goValidate (some true) (str "user@example.com")).isValid = true ∧
      (goValidate (some false) (str "user@example.com")).isValid = false ∧
      msgMXNoMX ∈ (goValidate (some false) (str "user@example.com")).errors := by
  exact ⟨by decide, by decide, by decide⟩

/-- C2 amended: a lookup error (oracle `none`) leaves `hasMXRecord` unset
and contributes nothing — errors and validity coincide with those of a
successful lookup that found records; but whenever execution reaches the
DNS step and the lookup succeeds finding no MX records, the diagnostic
"Domain does not have valid MX records" is appended to `errors`. -/
theorem c2_amended (email : Str) :
    (goValidate none email).hasMXRecord = none ∧
      (goValidate none email).errors = (goValidate (some true) email).errors ∧
      (goValidate none email).isValid = (goValidate (some true) email).isValid ∧
      ((goValidate (some false) email).dnsQueried = true →
        msgMXNoMX ∈ (goValidate (some false) email).errors) := by
  by_cases hn : goTrimSpace (goToLower email) = []
  · rw [goValidate_of_empty none email hn, goValidate_of_empty (some true) email hn,
      goValidate_of_empty (some false) email hn]
    exact ⟨rfl, rfl, rfl, fun hq => absurd hq (by simp)⟩
  · by_cases hlen : (goSplit 64 (goTrimSpace (goToLower email))).length = 2
    · rw [goValidate_of_goodsplit none email hn hlen,
        goValidate_of_goodsplit (some true) email hn hlen,
        goValidate_of_goodsplit (some false) email hn hlen]
      refine ⟨rfl, rfl, rfl, fun _ => ?_⟩
      show msgMXNoMX ∈ _ ++ _ ++ mxDNSErrors (some false)
      simp [mxDNSErrors]
    · have hlen2 : (goSplit 64 (goTrimSpace (goToLower email))).length ≠ 2 := hlen
      rw [goValidate_of_badsplit none email hn hlen2,
        goValidate_of_badsplit (some true) email hn hlen2,
        goValidate_of_badsplit (some false) email hn hlen2]
      exact ⟨rfl, rfl, rfl, fun hq => absurd hq (by simp)⟩

/-- C2 amended witness: on "user@example.com" the DNS step is reached, and
a successful no-records lookup appends its diagnostic. -/
theorem c2_amended_witness :
    msgMXNoMX ∈ (goValidate (some false) (str "user@example.com")).errors :=
  (c2_amended (str "user@example.com")).2.2.2 (by decide)

/-- C4 counterexample: the options-based `Validate` leaves `normalized`
empty on the invalid input "user@invalid", although the canonical form of
that input is nonempty — refuting unconditional population. -/
theorem c4_counterexample :
    (optionsValidate defaultOpts (str "user@invalid")).isValid = false ∧
      (optionsValidate defaultOpts (str "user@invalid")).normalized = [] ∧
      goNormalizeEmail (str "user@invalid") ≠ [] := by
  exact ⟨by decide, by decide, by decide⟩

/-- C4 amended: the MX-checking `Validate` populates its normalized field
unconditionally with the trimmed lower-cased form, while the options-based
`Validate` populates `normalized` exactly when the result is valid and
leaves it empty otherwise. -/
theorem c4_amended :
    (∀ (mx : Option Bool) (email : Str),
      (goValidate mx email).normalizedEmail = goNormalizeEmail email) ∧
    (∀ (opts : Options) (email : Str),
      (optionsValidate opts email).normalized =
        (if (optionsValidate opts email).isValid then goNormalizeEmail email
         else [])) := by
  constructor
  · intro mx email
    by_cases hn : goTrimSpace (goToLower email) = []
    · rw [goValidate_of_empty mx email hn]; rfl
    · by_cases hlen : (goSplit 64 (goTrimSpace (goToLower email))).length = 2
      · rw [goValidate_of_goodsplit mx email hn hlen]; rfl
      · rw [goValidate_of_badsplit mx email hn hlen]; rfl
  · intro opts email
    unfold optionsValidate
    by_cases hf : optIsValidFormat email = false
    · rw [if_pos hf]
      simp
    · rw [if_neg hf]

/-- Input violating three length bounds at once: a 65-code-point local
part, '@', and a 254-code-point domain (total length 320). -/
def c3multiInput : Str := List.replicate 65 97 ++ 64 :: List.replicate 254 98

/-- Input whose only length defect is a 70-code-point domain label. -/
def c3labelInput : Str := str "a@" ++ List.replicate 70 98 ++ str ".com"

set_option maxRecDepth 40000 in
/-- C3 counterexample: on an input violating the whole-address, local-part
and domain bounds simultaneously, `LengthRule.Validate` reports a single
diagnostic (the whole-address bound) rather than one per violated bound;
and an input whose only defect is a 70-character domain label yields no
diagnostic at all, because the rule checks no per-label bound. -/
theorem c3_counterexample :
    254 < c3multiInput.length ∧
      goSplit 64 c3multiInput = [List.replicate 65 97, List.replicate 254 98] ∧
      64 < (List.replicate 65 97 : Str).length ∧
      253 < (List.replicate 254 98 : Str).length ∧
      lengthRuleValidate c3multiInput = some (lengthRuleName, msgLRTooLong) ∧
      lengthRuleValidate c3labelInput = none ∧
      goSplit 46 ((goSplit 64 c3labelInput).getD 1 []) =
        [List.replicate 70 98, str "com"] ∧
      63 < (List.replicate 70 98 : Str).length := by
  exact ⟨by decide, by decide, by decide, by decide, by decide, by decide,
    by decide, by decide⟩

/-- C3 amended: on an input with exactly one '@', `LengthRule.Validate`
checks three bounds — whole address at most 254, local part at most 64,
domain at most 253 — in that order, returns only the first violated bound
as a single diagnostic, and checks no per-label bound. -/
theorem c3_amended (a b : Str) (ha : a.count 64 = 0) (hb : b.count 64 = 0) :
    lengthRuleValidate (a ++ 64 :: b) =
      (if 254 < (a ++ 64 :: b).length then some (lengthRuleName, msgLRTooLong)
       else if 64 < a.length then some (lengthRuleName, msgLRLocalLong)
       else if 253 < b.length then some (lengthRuleName, msgLRDomainLong)
       else none) := by
  unfold lengthRuleValidate
  rw [goSplit_sep_append 64 a b ha, goSplit_no_sep 64 b hb]

/-- C3 amended witness: a 65-character local part with an ordinary domain
triggers exactly the local-part diagnostic. -/
theorem c3_amended_witness :
    lengthRuleValidate (List.replicate 65 97 ++ 64 :: str "example.com") =
      some (lengthRuleName, msgLRLocalLong) := by
  have h := c3_amended (List.replicate 65 97) (str "example.com")
    (by decide) (by decide)
  rw [h]
  decide

/-- C6 counterexample: with IP-literal domains allowed, the address
'user@[192.168.1.1]' is still rejected by `Validate`: the format regex
admits no '[' in the domain, so the pipeline never reaches the IP check. -/
theorem c6_counterexample :
    (optionsValidate { defaultOpts with allowIPAddresses := true }
        (str "user@[192.168.1.1]")).isValid = false := by
  decide

/-- The bracketed domain form "[" ++ x ++ "]". -/
def braWrap (x : Str) : Str := 91 :: (x ++ [93])

/-- C6 amended: `validateDomain` alone implements the claimed IP-literal
policy — with the flag set, a bracketed domain passes exactly when its
content parses as an IPv4 or IPv6 literal and otherwise reports "invalid
IP address in domain", and without the flag it reports the policy
violation; but `Validate` as a whole rejects every IP-literal address at
the format gate with "Invalid email format", so 'user@[192.168.1.1]' is
invalid under both flag values. -/
theorem c6_amended :
    (∀ (x : Str) (allow : Bool),
      optValidateDomain { defaultOpts with allowIPAddresses := allow } (braWrap x) =
        (if allow then (if goParseIP x then none else some msgOptBadIP)
         else some msgOptIPNotAllowed)) ∧
      goParseIP (str "192.168.1.1") = true ∧
      goParseIP (str "notanip") = false ∧
      (∀ allow : Bool,
        (optionsValidate { defaultOpts with allowIPAddresses := allow }
            (str "user@[192.168.1.1]")).isValid = false ∧
          (optionsValidate { defaultOpts with allowIPAddresses := allow }
              (str "user@[192.168.1.1]")).errors = [msgOptBadFormat]) := by
  refine ⟨fun x allow => ?_, by decide, by decide, fun allow => ?_⟩
  · unfold optValidateDomain
    have hne : braWrap x ≠ [] := by simp [braWrap]
    have hend : endsWithC 93 (braWrap x) = true := by
      unfold endsWithC braWrap
      rw [show (91 :: (x ++ [93])) = (91 :: x) ++ [93] from rfl,
        List.getLast?_concat]
      rfl
    have hcond : (startsWithC 91 (braWrap x) && endsWithC 93 (braWrap x)) = true := by
      rw [hend]
      rfl
    rw [if_neg hne, if_pos hcond]
    have hdrop : ((braWrap x).drop 1).dropLast = x := by
      show (x ++ [93]).dropLast = x
      exact List.dropLast_concat
    rw [hdrop]
    cases allow <;> rfl
  · cases allow <;> exact ⟨by decide, by decide⟩

/-- Final domain label (TLD) of an address, as the options-based pipeline
computes it: last '.'-separated label of the part after the '@'. -/
def tldOf (email : Str) : Str :=
  (goSplit 46 ((optSplitEmail email).2)).getLastD []

theorem optValidateDomain_none_tld (d : Str)
    (h : optValidateDomain defaultOpts d = none) :
    2 ≤ ((goSplit 46 d).getLastD []).length := by
  unfold optValidateDomain at h
  by_cases h1 : d = []
  · rw [if_pos h1] at h
    exact absurd h (by simp)
  rw [if_neg h1] at h
  by_cases h2 : (startsWithC 91 d && endsWithC 93 d) = true
  · rw [if_pos h2] at h
    simp [defaultOpts] at h
  rw [if_neg h2] at h
  by_cases h3 : (goSplit 46 d).length < 2
  · rw [if_pos h3] at h
    exact absurd h (by simp)
  rw [if_neg h3] at h
  by_cases h4 : optIsValidTLD defaultOpts ((goSplit 46 d).getLastD []) = true
  · have hmem : goToLower ((goSplit 46 d).getLastD []) ∈ builtinTLDs := by
      unfold optIsValidTLD at h4
      rw [if_neg (by simp [defaultOpts])] at h4
      exact List.elem_iff.mp h4
    have hlow : 2 ≤ (goToLower ((goSplit 46 d).getLastD [])).length := by
      simp only [builtinTLDs, List.mem_cons, List.not_mem_nil, or_false] at hmem
      rcases hmem with h'|h'|h'|h'|h'|h'|h'|h'|h'|h' <;> rw [h'] <;> decide
    have hmap : (goToLower ((goSplit 46 d).getLastD [])).length =
        ((goSplit 46 d).getLastD []).length := List.length_map _ _
    omega
  · have h4f : optIsValidTLD defaultOpts ((goSplit 46 d).getLastD []) = false :=
      Bool.eq_false_iff.mpr h4
    rw [h4f] at h
    exact absurd h (by simp)

/-- C7 counterexample: with the non-empty allow-list `allowedTLDs=["c"]`,
the address 'a@b.c' — whose TLD has length 1 — is accepted by `Validate`:
the allow-list path of `isValidTLD` performs no length check. -/
theorem c7_counterexample :
    (optionsValidate { defaultOpts with allowTLDs := [str "c"] }
        (str "a@b.c")).isValid = true ∧
      (tldOf (str "a@b.c")).length = 1 := by
  exact ⟨by decide, by decide⟩

/-- C7 amended: under the default configuration (empty allow-list) every
address accepted by the options-based `Validate` has a TLD of length at
least 2 (all built-in registry entries do), and 'a@b.c' is rejected with
"invalid top-level domain"; but a non-empty `allowedTLDs` whitelist
bypasses the length bound, so a one-character whitelisted TLD is
accepted. -/
theorem c7_amended :
    (∀ email : Str, (optionsValidate defaultOpts email).isValid = true →
      2 ≤ (tldOf email).length) ∧
      ((optionsValidate defaultOpts (str "a@b.c")).isValid = false ∧
        msgOptBadTLD ∈ (optionsValidate defaultOpts (str "a@b.c")).errors) ∧
      (optionsValidate { defaultOpts with allowTLDs := [str "c"] }
          (str "a@b.c")).isValid = true := by
  refine ⟨fun email h => ?_, ⟨by decide, by decide⟩, by decide⟩
  unfold optionsValidate at h
  by_cases hf : optIsValidFormat email = false
  · rw [if_pos hf] at h
    exact absurd h (by simp)
  rw [if_neg hf] at h
  have herrs : optErrors defaultOpts email = [] := by
    have : (optErrors defaultOpts email).isEmpty = true := h
    exact List.isEmpty_iff.mp this
  unfold optErrors at herrs
  obtain ⟨hab, _⟩ := List.append_eq_nil.mp herrs
  obtain ⟨_, hdom⟩ := List.append_eq_nil.mp hab
  cases hd : optValidateDomain defaultOpts (optSplitEmail email).2 with
  | some m => rw [hd] at hdom; exact absurd hdom (by simp)
  | none => exact optValidateDomain_none_tld _ hd

/-- C7 amended witness: 'user@example.com' is accepted by the default
configuration and its TLD "com" has length 3. -/
theorem c7_amended_witness :
    (optionsValidate defaultOpts (str "user@example.com")).isValid = true ∧
      2 ≤ (tldOf (str "user@example.com")).length :=
  ⟨by decide, c7_amended.1 (str "user@example.com") (by decide)⟩

/-- C10 counterexample: 'user@xyz' has final label "xyz", which is outside
the built-in TLD set, yet the default-configuration `Validate` reports
"domain must have at least two parts", not "invalid top-level domain". -/
theorem c10_counterexample :
    (optionsValidate defaultOpts (str "user@xyz")).errors = [msgOptTwoParts] ∧
      ¬ msgOptBadTLD ∈ (optionsValidate defaultOpts (str "user@xyz")).errors ∧
      builtinTLDs.contains (goToLower (tldOf (str "user@xyz"))) = false ∧
      (optionsValidate defaultOpts (str "user@xyz")).isValid = false := by
  exact ⟨by decide, by decide, by decide, by decide⟩

/-- C10 amended: with empty `allowedTLDs`, `isValidTLD` accepts a TLD
exactly when its lower-cased form is one of the ten built-in entries; every
domain that reaches the TLD check (nonempty, not an IP literal, at least
two labels) with a final label outside that set is reported as "invalid
top-level domain"; and the two cited example addresses are rejected by
`Validate` with exactly that diagnostic.  An address with a single-label
domain is instead rejected with "domain must have at least two parts". -/
theorem c10_amended :
    (∀ tld : Str,
      (optIsValidTLD defaultOpts tld = true ↔ goToLower tld ∈ builtinTLDs)) ∧
      (∀ d : Str, d ≠ [] → (startsWithC 91 d && endsWithC 93 d) = false →
        2 ≤ (goSplit 46 d).length →
        builtinTLDs.contains (goToLower ((goSplit 46 d).getLastD [])) = false →
        optValidateDomain defaultOpts d = some msgOptBadTLD) ∧
      ((optionsValidate defaultOpts (str "user@example.co.uk")).isValid = false ∧
        (optionsValidate defaultOpts (str "user@example.co.uk")).errors =
          [msgOptBadTLD]) ∧
      ((optionsValidate defaultOpts (str "user@example.dev")).isValid = false ∧
        (optionsValidate defaultOpts (str "user@example.dev")).errors =
          [msgOptBadTLD]) := by
  refine ⟨fun tld => ?_, fun d h1 h2 h3 h4 => ?_,
    ⟨by decide, by decide⟩, ⟨by decide, by decide⟩⟩
  · unfold optIsValidTLD
    rw [if_neg (by simp [defaultOpts])]
    exact List.elem_iff
  · unfold optValidateDomain
    rw [if_neg h1, if_neg (by rw [h2]; exact Bool.false_ne_true)]
    have hvalid : optIsValidTLD defaultOpts ((goSplit 46 d).getLastD []) = false := by
      unfold optIsValidTLD
      rw [if_neg (by simp [defaultOpts])]
      exact h4
    rw [if_neg (by omega : ¬ (goSplit 46 d).length < 2), hvalid]
    rfl

/-- C10 amended witness: the domain "example.dev" reaches the TLD check and
is reported as an invalid top-level domain. -/
theorem c10_amended_witness :
    optValidateDomain defaultOpts (str "example.dev") = some msgOptBadTLD :=
  c10_amended.2.1 (str "example.dev") (by decide) (by decide) (by decide) (by decide)
